import Mathlib

/-!
Shallow embedding of the event-routing daemon ("webhook" repository):
the process-program state (`src/event/process/mod.rs`), the op/expression
evaluator (`src/event/process/operation.rs`), the sender URL resolution
(`src/event/sender/mod.rs`, `src/event/sender/http.rs`), the per-message
program fold of the pipeline (`src/event/mod.rs`), and the pub/sub message
extraction (`src/event/trigger/pubsub.rs`).

Conventions:
* Rust `HashMap<String, Item>` is modelled as an association list
  `List (String × Item)`; lookup takes the first matching binding and
  insertion replaces the first matching binding in place (or appends).
  Association lists built from `HashMap` operations have distinct keys,
  so the first-match convention agrees with the Rust map.
* Rust `Identifier` is a dotted string; the code only consumes it through
  `Identifier::split`, which splits off the first `.`-separated segment and
  rejoins the rest with `.`.  We represent an identifier by its list of
  `.`-separated segments (each segment therefore contains no `.`), which is
  a bijective image of the string form.  Rejoining a tail and re-splitting
  it is the identity on segment lists, with one exception mirrored
  explicitly below: a remaining tail of exactly `[""]` rejoins to the empty
  string, which Rust's `split` turns into `None` (so `"a."` behaves as
  `"a"`).
* Rust `i64` is modelled as `Int` and `usize` as `Nat` bounded by
  `2 ^ 64 - 1` where the code parses indices.
* Rust panics (`expect`, `unwrap`, `unimplemented!`) are modelled as an
  explicit `panicked` outcome, distinct from structured `Err` results.
-/

namespace Webhook

/-- Kind of a Rust `std::num::ParseIntError`, as produced by
`usize::from_str`.  The Rust code stringifies it into
`Error::InvalidIndex { reason }`; we keep the kind instead of the message
text. -/
inductive ParseIntErrorKind where
  | empty
  | invalidDigit
  | posOverflow
deriving DecidableEq

/-- Largest value of a 64-bit Rust `usize`. -/
def usizeMax : Nat := 2 ^ 64 - 1

/-- Model of `usize::from_str`: an optional leading `+` followed by one or
more ASCII digits, rejecting the empty string, non-digit characters, and
values above `usize::MAX`. -/
def parseUsize (s : String) : Except ParseIntErrorKind Nat :=
  match s.data with
  | [] => .error .empty
  | c :: rest =>
    let digits := if c = '+' then rest else c :: rest
    if digits = [] then .error .invalidDigit
    else if digits.all Char.isDigit then
      let n := digits.foldl (fun acc d => acc * 10 + (d.toNat - 48)) 0
      if n ≤ usizeMax then .ok n else .error .posOverflow
    else .error .invalidDigit

/-- Scalar values (`enum Value` in `process/mod.rs`); `IntValue` holds a
Rust `i64`, modelled as `Int`. -/
inductive Value where
  | none
  | intValue (i : Int)
  | stringValue (s : String)
deriving DecidableEq

/-- The `Value::type_name` method. -/
def Value.type_name : Value → String
  | .none => "None"
  | .intValue _ => "Int"
  | .stringValue _ => "String"

/-- The recursive `Item` type (`enum Item` in `process/mod.rs`); a map is
modelled as an association list standing for the Rust `HashMap`. -/
inductive Item where
  | value (v : Value)
  | vec (l : List Item)
  | map (m : List (String × Item))

mutual
/-- Decidable structural equality for `Item` (the Rust type derives
`PartialEq`/`Eq`). -/
def Item.decEq : (a b : Item) → Decidable (a = b)
  | .value v, .value w =>
    if h : v = w then isTrue (by rw [h])
    else isFalse (fun hh => h (by cases hh; rfl))
  | .value _, .vec _ => isFalse (fun h => Item.noConfusion h)
  | .value _, .map _ => isFalse (fun h => Item.noConfusion h)
  | .vec _, .value _ => isFalse (fun h => Item.noConfusion h)
  | .vec l1, .vec l2 =>
    match Item.decEqList l1 l2 with
    | isTrue h => isTrue (by rw [h])
    | isFalse h => isFalse (fun hh => h (by cases hh; rfl))
  | .vec _, .map _ => isFalse (fun h => Item.noConfusion h)
  | .map _, .value _ => isFalse (fun h => Item.noConfusion h)
  | .map _, .vec _ => isFalse (fun h => Item.noConfusion h)
  | .map m1, .map m2 =>
    match Item.decEqAList m1 m2 with
    | isTrue h => isTrue (by rw [h])
    | isFalse h => isFalse (fun hh => h (by cases hh; rfl))

/-- Decidable equality for lists of items. -/
def Item.decEqList : (a b : List Item) → Decidable (a = b)
  | [], [] => isTrue rfl
  | [], _ :: _ => isFalse (fun h => List.noConfusion h)
  | _ :: _, [] => isFalse (fun h => List.noConfusion h)
  | a :: as, b :: bs =>
    match Item.decEq a b with
    | isTrue h1 =>
      match Item.decEqList as bs with
      | isTrue h2 => isTrue (by rw [h1, h2])
      | isFalse h2 => isFalse (fun hh => h2 (by cases hh; rfl))
    | isFalse h1 => isFalse (fun hh => h1 (by cases hh; rfl))

/-- Decidable equality for association lists of items. -/
def Item.decEqAList : (a b : List (String × Item)) → Decidable (a = b)
  | [], [] => isTrue rfl
  | [], _ :: _ => isFalse (fun h => List.noConfusion h)
  | _ :: _, [] => isFalse (fun h => List.noConfusion h)
  | (k1, a) :: as, (k2, b) :: bs =>
    if hk : k1 = k2 then
      match Item.decEq a b with
      | isTrue h1 =>
        match Item.decEqAList as bs with
        | isTrue h2 => isTrue (by rw [hk, h1, h2])
        | isFalse h2 => isFalse (fun hh => h2 (by cases hh; rfl))
      | isFalse h1 => isFalse (fun hh => h1 (by cases hh; rfl))
    else isFalse (fun hh => hk (by cases hh; rfl))
end

instance : DecidableEq Item := Item.decEq

/-- The `Item::type_name` method. -/
def Item.type_name : Item → String
  | .value v => v.type_name
  | .vec _ => "Array"
  | .map _ => "Map"

/-- Association-list model of `HashMap::get`: first matching binding. -/
def alFind (m : List (String × Item)) (k : String) : Option Item :=
  match m with
  | [] => Option.none
  | (k', v) :: rest => if k' = k then some v else alFind rest k

/-- Association-list model of `HashMap::insert`: replaces the first
binding of `k` in place (returning the displaced value) or appends a new
binding.  Also used to model in-place mutation through `get_mut`. -/
def alInsert (m : List (String × Item)) (k : String) (v : Item) :
    Option Item × List (String × Item) :=
  match m with
  | [] => (Option.none, [(k, v)])
  | (k', v') :: rest =>
    if k' = k then (some v', (k, v) :: rest)
    else
      let (old, rest') := alInsert rest k v
      (old, (k', v') :: rest')

/-- An identifier, represented by its list of `.`-separated segments (see
the header comment; the Rust type wraps the dotted string itself). -/
abbrev Identifier := List String

/-- Model of `Identifier::split`: first segment plus the remaining
segments rejoined with `.` and re-split, which is the identity except that
a remaining `[""]` (the string `"a."`) rejoins to `""` and becomes
`none`. -/
def Identifier.split : Identifier → Option String × Option Identifier
  | [] => (Option.none, Option.none)
  | [k] => (some k, Option.none)
  | k :: r1 :: rs => (some k, if r1 = "" ∧ rs = [] then Option.none else some (r1 :: rs))

/-- Decidable equality for `Except` results. -/
instance {ε α : Type} [DecidableEq ε] [DecidableEq α] : DecidableEq (Except ε α) :=
  fun a b =>
    match a, b with
    | .ok x, .ok y =>
      if h : x = y then isTrue (by rw [h])
      else isFalse (fun hh => h (by cases hh; rfl))
    | .ok _, .error _ => isFalse (fun h => Except.noConfusion h)
    | .error _, .ok _ => isFalse (fun h => Except.noConfusion h)
    | .error x, .error y =>
      if h : x = y then isTrue (by rw [h])
      else isFalse (fun hh => h (by cases hh; rfl))

/-- Errors of the state module (`enum Error` in `process/mod.rs`). -/
inductive PError where
  | nonMapAccess (field : String) (t : String)
  | indexOutOfBound (index : Nat) (len : Nat)
  | invalidIndex (reason : ParseIntErrorKind)
deriving DecidableEq

/-- The state is a `HashMap<String, Item>` (struct `State`). -/
abbrev State := List (String × Item)

/-- The `State::new` constructor: an empty map. -/
def State.new : State := []

mutual
/-- Model of `State::get_from_map`, with the `split` of the Rust code
expanded into list patterns (see `Identifier.split`): an empty tail and
the `[""]` tail both make the current segment the leaf. -/
def State.get_from_map : List (String × Item) → Identifier → Option Item
  | _, [] => Option.none
  | m, [k] => alFind m k
  | m, k :: r1 :: rs =>
    if r1 = "" ∧ rs = [] then alFind m k
    else
      match alFind m k with
      | some (.map mm) => State.get_from_map mm (r1 :: rs)
      | some (.vec vv) => State.get_from_vec vv (r1 :: rs)
      | _ => Option.none

/-- Model of `State::get_from_vec`: the segment is parsed with
`usize::from_str` and a parse failure or missing index yields `None`. -/
def State.get_from_vec : List Item → Identifier → Option Item
  | _, [] => Option.none
  | v, [k] => ((parseUsize k).toOption.bind fun idx => v[idx]?)
  | v, k :: r1 :: rs =>
    if r1 = "" ∧ rs = [] then (parseUsize k).toOption.bind fun idx => v[idx]?
    else
      match (parseUsize k).toOption.bind fun idx => v[idx]? with
      | some (.map mm) => State.get_from_map mm (r1 :: rs)
      | some (.vec vv) => State.get_from_vec vv (r1 :: rs)
      | _ => Option.none
end

/-- The public `State::get`. -/
def State.get (s : State) (key : Identifier) : Option Item :=
  State.get_from_map s key

mutual
/-- Model of `State::set_map`.  Rust mutates the map in place, so the
model returns the map alongside the result; the map value reflects every
insertion performed before a failure.  A missing intermediate entry is
auto-created as an empty `Map` and the recursion continues inside it. -/
def State.set_map (m : List (String × Item)) :
    Identifier → Item → Except PError (Option Item) × List (String × Item)
  | [], _ => (.ok Option.none, m)
  | [k], v =>
    let (old, m') := alInsert m k v
    (.ok old, m')
  | k :: r1 :: rs, v =>
    if r1 = "" ∧ rs = [] then
      let (old, m') := alInsert m k v
      (.ok old, m')
    else
      match alFind m k with
      | Option.none =>
        let (res, child) := State.set_map [] (r1 :: rs) v
        (res, (alInsert m k (.map child)).2)
      | some (.map mm) =>
        let (res, mm') := State.set_map mm (r1 :: rs) v
        (res, (alInsert m k (.map mm')).2)
      | some (.vec vv) =>
        let (res, vv') := State.set_vec vv (r1 :: rs) v
        (res, (alInsert m k (.vec vv')).2)
      | some i => (.error (.nonMapAccess k i.type_name), m)

/-- Model of `State::set_vec`.  At the leaf Rust writes
`Ok(from_str(key).map(|idx| vec.get_mut(idx))?.map(swap))`, so an
out-of-range index yields `Ok(None)` and leaves the vector untouched; only
an intermediate segment checks `IndexOutOfBound`. -/
def State.set_vec (vec : List Item) :
    Identifier → Item → Except PError (Option Item) × List Item
  | [], _ => (.ok Option.none, vec)
  | [k], v =>
    match parseUsize k with
    | .error e => (.error (.invalidIndex e), vec)
    | .ok idx =>
      match vec[idx]? with
      | Option.none => (.ok Option.none, vec)
      | some old => (.ok (some old), vec.set idx v)
  | k :: r1 :: rs, v =>
    if r1 = "" ∧ rs = [] then
      match parseUsize k with
      | .error e => (.error (.invalidIndex e), vec)
      | .ok idx =>
        match vec[idx]? with
        | Option.none => (.ok Option.none, vec)
        | some old => (.ok (some old), vec.set idx v)
    else
      match parseUsize k with
      | .error e => (.error (.invalidIndex e), vec)
      | .ok idx =>
        match vec[idx]? with
        | Option.none => (.error (.indexOutOfBound idx vec.length), vec)
        | some (.map mm) =>
          let (res, mm') := State.set_map mm (r1 :: rs) v
          (res, vec.set idx (.map mm'))
        | some (.vec vv) =>
          let (res, vv') := State.set_vec vv (r1 :: rs) v
          (res, vec.set idx (.vec vv'))
        | some i => (.error (.nonMapAccess k i.type_name), vec)
end

/-- The public `State::set`. -/
def State.set (s : State) (key : Identifier) (value : Item) :
    Except PError (Option Item) × State :=
  State.set_map s key value

/-- The `State::len` method: top-level key count. -/
def State.len (s : State) : Nat := s.length

/-- The payload (`struct Payload` in `sender/mod.rs`): a byte sequence. -/
structure Payload where
  content : List UInt8
deriving DecidableEq

/-- The `Payload::new` constructor. -/
def Payload.new (content : List UInt8) : Payload := ⟨content⟩

/-- UTF-8 encoding of one character. -/
def utf8Char (c : Char) : List UInt8 :=
  let n := c.toNat
  if n < 0x80 then [UInt8.ofNat n]
  else if n < 0x800 then
    [UInt8.ofNat (0xC0 + n / 0x40), UInt8.ofNat (0x80 + n % 0x40)]
  else if n < 0x10000 then
    [UInt8.ofNat (0xE0 + n / 0x1000), UInt8.ofNat (0x80 + n / 0x40 % 0x40),
     UInt8.ofNat (0x80 + n % 0x40)]
  else
    [UInt8.ofNat (0xF0 + n / 0x40000), UInt8.ofNat (0x80 + n / 0x1000 % 0x40),
     UInt8.ofNat (0x80 + n / 0x40 % 0x40), UInt8.ofNat (0x80 + n % 0x40)]

/-- UTF-8 encoding of a string, the byte form in which serialized
payloads are produced. -/
def utf8Bytes (s : String) : List UInt8 :=
  (s.data.map utf8Char).flatten

/-- Lowercase hexadecimal digit. -/
def hexDigit (n : Nat) : Char :=
  if n < 10 then Char.ofNat (48 + n) else Char.ofNat (87 + n)

/-- Modelled from the spec: the JSON string escaping performed by the
external `serde_json` serializer, which escapes the quote, the backslash
and control characters below `0x20`. -/
def jsonEscapeChar (c : Char) : String :=
  if c = '"' then "\\\""
  else if c = '\\' then "\\\\"
  else if c = Char.ofNat 8 then "\\b"
  else if c = Char.ofNat 12 then "\\f"
  else if c = '\n' then "\\n"
  else if c = Char.ofNat 13 then "\\r"
  else if c = Char.ofNat 9 then "\\t"
  else if c.toNat < 0x20 then
    "\\u00" ++ String.mk [hexDigit (c.toNat / 16), hexDigit (c.toNat % 16)]
  else String.singleton c

/-- A JSON string literal with escapes. -/
def jsonString (s : String) : String :=
  "\"" ++ String.join (s.data.map jsonEscapeChar) ++ "\""

mutual
/-- Modelled from the spec: the external `serde_json::to_vec` serializer
for `Item` (`None` serializes as `null`, integers in decimal, strings
quoted, sequences and mappings in the usual JSON syntax; map entries in
the association-list order, standing for the unspecified `HashMap`
iteration order). -/
def Item.toJson : Item → String
  | .value .none => "null"
  | .value (.intValue i) => toString i
  | .value (.stringValue s) => jsonString s
  | .vec l => "[" ++ String.intercalate "," (Item.listToJson l) ++ "]"
  | .map m => "\x7b" ++ String.intercalate "," (Item.alistToJson m) ++ "\x7d"

/-- JSON serialization of a list of items. -/
def Item.listToJson : List Item → List String
  | [] => []
  | a :: as => Item.toJson a :: Item.listToJson as

/-- JSON serialization of the entries of a map. -/
def Item.alistToJson : List (String × Item) → List String
  | [] => []
  | (k, v) :: rest => (jsonString k ++ ":" ++ Item.toJson v) :: Item.alistToJson rest
end

mutual
/-- Modelled from the spec: the external `serde_yaml::to_vec` serializer,
which emits a YAML document for the item.  We model the `---` document
header and a flow-style body; no claim depends on the exact YAML bytes,
only on the serialized payload being a function of the item. -/
def Item.toYaml : Item → String
  | i => "---\n" ++ Item.yamlFlow i

/-- Flow-style YAML body of an item. -/
def Item.yamlFlow : Item → String
  | .value .none => "~"
  | .value (.intValue i) => toString i
  | .value (.stringValue s) => jsonString s
  | .vec l => "[" ++ String.intercalate ", " (Item.listToYaml l) ++ "]"
  | .map m => "\x7b" ++ String.intercalate ", " (Item.alistToYaml m) ++ "\x7d"

/-- YAML serialization of a list of items. -/
def Item.listToYaml : List Item → List String
  | [] => []
  | a :: as => Item.yamlFlow a :: Item.listToYaml as

/-- YAML serialization of the entries of a map. -/
def Item.alistToYaml : List (String × Item) → List String
  | [] => []
  | (k, v) :: rest => (jsonString k ++ ": " ++ Item.yamlFlow v) :: Item.alistToYaml rest
end

/-- The payload formats (`enum PayloadFormat` in `operation.rs`). -/
inductive PayloadFormat where
  | yaml
  | json
deriving DecidableEq

/-- Model of `PayloadFormat::to_vec`.  The Rust signature is fallible only
because the serde error conversion exists; serializing an `Item` (string
keys, finite tree) cannot fail, so the model is total. -/
def PayloadFormat.to_vec (fmt : PayloadFormat) (i : Item) : List UInt8 :=
  match fmt with
  | .yaml => utf8Bytes i.toYaml
  | .json => utf8Bytes i.toJson

/-- Whitespace skipping for the modelled payload reader. -/
def skipWs : List Char → List Char
  | [] => []
  | c :: rest =>
    if c = ' ' ∨ c = '\n' ∨ c = '\t' ∨ c = Char.ofNat 13 then skipWs rest
    else c :: rest

/-- String-literal body reader (no escapes) for the modelled payload
reader: consumes up to the closing quote. -/
def parseStrChars : List Char → Option (List Char × List Char)
  | [] => Option.none
  | c :: rest =>
    if c = '"' then some ([], rest)
    else (parseStrChars rest).map fun (s, r) => (c :: s, r)

/-- Splits leading ASCII digits from the rest. -/
def takeDigits : List Char → List Char × List Char
  | [] => ([], [])
  | c :: rest =>
    if c.isDigit then
      let (ds, r) := takeDigits rest
      (c :: ds, r)
    else ([], c :: rest)

/-- Numeric value of a digit list. -/
def digitsVal (ds : List Char) : Nat :=
  ds.foldl (fun acc d => acc * 10 + (d.toNat - 48)) 0

/-- Integer token reader for the modelled payload reader. -/
def parseIntTok (cs : List Char) : Option (Item × List Char) :=
  match cs with
  | '-' :: rest =>
    let (ds, r) := takeDigits rest
    if ds = [] then Option.none
    else some (.value (.intValue (-(digitsVal ds : Int))), r)
  | _ =>
    let (ds, r) := takeDigits cs
    if ds = [] then Option.none
    else some (.value (.intValue (digitsVal ds : Int)), r)

mutual
/-- Modelled from the spec: the external `serde_json::from_slice` /
`serde_yaml::from_slice` readers behind `from_payload`, which "parse
current payload bytes in the given format into an `Item`" (§4.6).  We
model both with one minimal fueled JSON-style reader (null, integers,
escape-free strings, arrays, objects); no claim depends on the parse
result, only on the possibility of failure. -/
def parseJson : Nat → List Char → Option (Item × List Char)
  | 0, _ => Option.none
  | fuel + 1, cs =>
    match skipWs cs with
    | 'n' :: 'u' :: 'l' :: 'l' :: rest => some (.value .none, rest)
    | '"' :: rest =>
      (parseStrChars rest).map fun (s, r) => (.value (.stringValue (String.mk s)), r)
    | '[' :: rest => (parseArrItems fuel rest).map fun (l, r) => (.vec l, r)
    | '\x7b' :: rest => (parseObjItems fuel rest).map fun (m, r) => (.map m, r)
    | cs' => parseIntTok cs'

/-- Array-element reader of the modelled payload reader. -/
def parseArrItems : Nat → List Char → Option (List Item × List Char)
  | 0, _ => Option.none
  | fuel + 1, cs =>
    match skipWs cs with
    | ']' :: rest => some ([], rest)
    | cs' =>
      match parseJson fuel cs' with
      | Option.none => Option.none
      | some (i, r) =>
        match skipWs r with
        | ',' :: r' => (parseArrItems fuel r').map fun (l, r'') => (i :: l, r'')
        | ']' :: r' => some ([i], r')
        | _ => Option.none

/-- Object-entry reader of the modelled payload reader. -/
def parseObjItems : Nat → List Char → Option (List (String × Item) × List Char)
  | 0, _ => Option.none
  | fuel + 1, cs =>
    match skipWs cs with
    | '\x7d' :: rest => some ([], rest)
    | '"' :: rest =>
      match parseStrChars rest with
      | Option.none => Option.none
      | some (k, r) =>
        match skipWs r with
        | ':' :: r' =>
          match parseJson fuel r' with
          | Option.none => Option.none
          | some (v, r'') =>
            match skipWs r'' with
            | ',' :: r3 =>
              (parseObjItems fuel r3).map fun (m, r4) => ((String.mk k, v) :: m, r4)
            | '\x7d' :: r3 => some ([(String.mk k, v)], r3)
            | _ => Option.none
        | _ => Option.none
    | _ => Option.none
end

/-- Model of `PayloadFormat::parse_payload`: reads the payload bytes into
an `Item`, `none` on a malformed payload (which the repository converts
into a panic, see `Expression.evaluate`). -/
def PayloadFormat.parse_payload (_fmt : PayloadFormat) (p : Payload) : Option Item :=
  let cs := p.content.map fun b => Char.ofNat b.toNat
  match parseJson (cs.length + 1) cs with
  | some (i, rest) => if skipWs rest = [] then some i else Option.none
  | Option.none => Option.none

/-- The expression language (`enum Expression` in `operation.rs`).  The
Rust `SetEnv { target, value }` helper struct shared by `Op` and
`Expression` is inlined into two fields, and the `as_map` Rust `HashMap`
is an association list standing for one iteration order. -/
inductive Expression where
  | setEnv (target : Identifier) (value : Expression)
  | getEnv (get_env : Identifier)
  | fromJson (from_json : String)
  | fromPayload (from_payload : PayloadFormat)
  | asMap (as_map : List (String × Expression))
  | item (i : Item)

/-- Outcome of running repository code that can return `Ok`, return a
structured `process::Error`, or panic. -/
inductive POutcome (α : Type) where
  | ok (a : α)
  | err (e : PError)
  | panicked
deriving DecidableEq

mutual
/-- Model of `Expression::evaluate`.  `from_json` hits `unimplemented!()`
(a panic); a `from_payload` parse failure is converted through a
`From<serde_json::Error>` impl whose body is also `unimplemented!()`, so
it panics as well; `set_env` propagates `state.set` errors with `?`. -/
def Expression.evaluate : Expression → Payload → State → POutcome (Item × Payload × State)
  | .setEnv target value, payload, state =>
    match Expression.evaluate value payload state with
    | .ok (v, payload', state') =>
      match State.set state' target v with
      | (.ok _, state'') => .ok (v, payload', state'')
      | (.error e, _) => .err e
    | .err e => .err e
    | .panicked => .panicked
  | .getEnv key, payload, state =>
    .ok ((State.get state key).getD (.value .none), payload, state)
  | .fromJson _, _, _ => .panicked
  | .fromPayload fmt, payload, state =>
    match fmt.parse_payload payload with
    | some i => .ok (i, payload, state)
    | Option.none => .panicked
  | .asMap m, payload, state =>
    match Expression.evalMapFold m [] payload state with
    | .ok (acc, payload', state') => .ok (.map acc, payload', state')
    | .err e => .err e
    | .panicked => .panicked
  | .item i, payload, state => .ok (i, payload, state)

/-- The fold inside the `as_map` branch of `Expression::evaluate`:
evaluates each entry in order, threading payload and state, inserting
each result into the accumulator map. -/
def Expression.evalMapFold :
    List (String × Expression) → List (String × Item) → Payload → State →
    POutcome (List (String × Item) × Payload × State)
  | [], acc, payload, state => .ok (acc, payload, state)
  | (k, e) :: rest, acc, payload, state =>
    match Expression.evaluate e payload state with
    | .ok (i, payload', state') =>
      Expression.evalMapFold rest (alInsert acc k i).2 payload' state'
    | .err er => .err er
    | .panicked => .panicked
end

/-- The operation language (`enum Op` in `operation.rs`), with the
`SetEnv`/`ToPayload` helper structs inlined. -/
inductive Op where
  | setEnv (target : Identifier) (value : Expression)
  | toPayload (format : PayloadFormat) (value : Expression)

/-- Model of `Op::execute`: `set_env` evaluates its value and stores it at
`target` in the state returned by the evaluation; `to_payload` evaluates
its value, serializes it and replaces the payload, returning the state
produced by the evaluation. -/
def Op.execute : Op → Payload → State → POutcome (Payload × State)
  | .setEnv target value, payload, state =>
    match value.evaluate payload state with
    | .ok (v, payload', state') =>
      match State.set state' target v with
      | (.ok _, state'') => .ok (payload', state'')
      | (.error e, _) => .err e
    | .err e => .err e
    | .panicked => .panicked
  | .toPayload fmt value, payload, state =>
    match value.evaluate payload state with
    | .ok (i, _, state') => .ok (Payload.new (fmt.to_vec i), state')
    | .err e => .err e
    | .panicked => .panicked

/-- Result of running code that either returns normally or panics. -/
inductive PanicOr (α : Type) where
  | ok (a : α)
  | panicked
deriving DecidableEq

/-- The op fold inside `dispatch_webhook` (`src/event/mod.rs`): each op
result passes through `.expect("unhandled error on process execution")`,
so a structured op error (and an op panic) becomes a panic of the
pipeline task. -/
def runOps : List Op → Payload → State → PanicOr (Payload × State)
  | [], payload, state => .ok (payload, state)
  | op :: rest, payload, state =>
    match op.execute payload state with
    | .ok (payload', state') => runOps rest payload' state'
    | .err _ => .panicked
    | .panicked => .panicked

/-- The program-evaluation part of `dispatch_webhook`: folds the op list
over `(Payload{msg.bytes()}, State::new())`. -/
def dispatch_webhook_program (ops : List Op) (bytes : List UInt8) :
    PanicOr (Payload × State) :=
  runOps ops (Payload.new bytes) State.new

/-- Target URL configuration (`enum EnvString` in `sender/mod.rs`):
either a literal string or a `{ from_env: Identifier }` lookup. -/
inductive EnvString where
  | fromEnv (from_env : Identifier)
  | string (s : String)

/-- Model of `EnvString::to_string`: a `from_env` lookup returns the bound
string only when the state binds the identifier to a `String` scalar, and
`None` for an absent identifier or any non-`String` item. -/
def EnvString.to_string (e : EnvString) (state : State) : Option String :=
  match e with
  | .fromEnv key =>
    match State.get state key with
    | some (.value (.stringValue s)) => some s
    | _ => Option.none
  | .string s => some s

/-- One URL entry of the HTTP sender config (`struct HttpSenderUrlConfig`
in `sender/http.rs`). -/
structure HttpSenderUrlConfig where
  url : EnvString

/-- One entry of the HTTP sender config (`enum HttpSenderType`); the
reference supports only `POST`. -/
inductive HttpSenderType where
  | post (post : HttpSenderUrlConfig)

/-- The HTTP sender config (`struct HttpSenderConfig`). -/
structure HttpSenderConfig where
  http : List HttpSenderType

/-- The URL-resolution step of `HttpSender::send`: for every configured
entry, unconditionally, `post.url.to_string(state).unwrap_or("missing
url")` becomes the URL of the request that is built and executed.  The
HTTP transport itself is external; the sender never skips an entry. -/
def HttpSender.requestUrls (config : HttpSenderConfig) (state : State) : List String :=
  config.http.map fun t =>
    match t with
    | .post p => (p.url.to_string state).getD "missing url"

/-- Base-64 value of one alphabet character (standard alphabet). -/
def b64Val (c : Char) : Option Nat :=
  if 'A' ≤ c ∧ c ≤ 'Z' then some (c.toNat - 65)
  else if 'a' ≤ c ∧ c ≤ 'z' then some (c.toNat - 97 + 26)
  else if '0' ≤ c ∧ c ≤ '9' then some (c.toNat - 48 + 52)
  else if c = '+' then some 62
  else if c = '/' then some 63
  else Option.none

/-- Modelled from the spec: the external `base64::decode` used on the
pub/sub `data` field (§6.3), standard alphabet with `=` padding, working
over groups of four characters. -/
def base64DecodeChars : List Char → Option (List UInt8)
  | [] => some []
  | c1 :: c2 :: c3 :: c4 :: rest =>
    match b64Val c1, b64Val c2 with
    | some v1, some v2 =>
      if c3 = '=' ∧ c4 = '=' ∧ rest = [] then
        if v2 % 16 = 0 then some [UInt8.ofNat (v1 * 4 + v2 / 16)] else Option.none
      else
        match b64Val c3 with
        | some v3 =>
          if c4 = '=' ∧ rest = [] then
            if v3 % 4 = 0 then
              some [UInt8.ofNat (v1 * 4 + v2 / 16), UInt8.ofNat (v2 % 16 * 16 + v3 / 4)]
            else Option.none
          else
            match b64Val c4 with
            | some v4 =>
              (base64DecodeChars rest).map fun bs =>
                UInt8.ofNat (v1 * 4 + v2 / 16) :: UInt8.ofNat (v2 % 16 * 16 + v3 / 4) ::
                  UInt8.ofNat (v3 % 4 * 64 + v4) :: bs
            | Option.none => Option.none
        | Option.none => Option.none
    | _, _ => Option.none
  | _ => Option.none

/-- Base-64 decoding of a string; `none` models the decode error (which
`get_one` turns into a panic through `.expect`). -/
def base64Decode (s : String) : Option (List UInt8) :=
  base64DecodeChars s.data

/-- The pub/sub wire message (`PubsubMessage` of the external API): only
the `data` field is consumed. -/
structure PubsubMessage where
  data : Option String
deriving DecidableEq

/-- One entry of a pull response (`ReceivedMessage` of the external
API). -/
structure ReceivedMessage where
  message : Option PubsubMessage
  ack_id : Option String
deriving DecidableEq

/-- The source message built by the pub/sub receiver (`struct Event` in
`trigger/pubsub.rs`): decoded bytes plus the retained ack id and
subscription identifier. -/
structure PubsubEvent where
  content : List UInt8
  ack_id : String
  subscription_id : String
deriving DecidableEq

/-- One turn of the polling loop in `Receiver::get_one`, as a function of
the `received_messages` field of the pull response: `none` means the loop
continues (sleeping first when the field was absent); `some m` means the
loop breaks with `messages.pop()`, the LAST element of the vector. -/
def getOneLoopStep (received_messages : Option (List ReceivedMessage)) :
    Option ReceivedMessage :=
  match received_messages with
  | Option.none => Option.none
  | some msgs => msgs.getLast?

/-- The tail of `Receiver::get_one` after the loop breaks with message
`m`: `m.message`, its `data`, the base-64 decode and `m.ack_id` all pass
through `.expect`, so a missing field or a malformed encoding panics; on
success the decoded bytes, the ack id and the subscription identifier are
retained in the returned source message. -/
def getOneFinish (subscription_id : String) (m : ReceivedMessage) :
    PanicOr PubsubEvent :=
  match m.message with
  | Option.none => .panicked
  | some msg =>
    match msg.data with
    | Option.none => .panicked
    | some d =>
      match base64Decode d with
      | Option.none => .panicked
      | some bytes =>
        match m.ack_id with
        | Option.none => .panicked
        | some ack => .ok ⟨bytes, ack, subscription_id⟩

/-- The message-handling path of `Receiver::get_one` on a single pull
response: `none` when the loop would poll again, otherwise the outcome of
building the source message from the popped entry. -/
def getOneResponse (subscription_id : String)
    (received_messages : Option (List ReceivedMessage)) :
    Option (PanicOr PubsubEvent) :=
  (getOneLoopStep received_messages).map (getOneFinish subscription_id)

/-! Theorems about the claims. -/

/-- C1.  The set/get round-trip fails on the code: on the state
`{"a": Vec []}` the call `set("a.0", "v")` SUCCEEDS with `Ok(None)` (the
leaf branch of `set_vec` maps an out-of-range `get_mut` into `Ok(None)`),
stores nothing, and the immediately following `get("a.0")` returns
`None`, not `Some("v")`. -/
theorem c1_set_get_roundtrip_fails_at_vec_leaf :
    State.set [("a", Item.vec [])] ["a", "0"] (.value (.stringValue "v"))
      = (.ok Option.none, [("a", Item.vec [])])
    ∧ State.get
        (State.set [("a", Item.vec [])] ["a", "0"] (.value (.stringValue "v"))).2
        ["a", "0"] = Option.none := by
  decide

/-- C2.  On the two-op program `[set_env a := 5, set_env a.b := 6]` the
second op returns `NonMapAccess`, and the op fold of `dispatch_webhook`
turns it into a panic through `.expect("unhandled error on process
execution")`: the iteration aborts before dispatch and before
`msg.done()`, instead of logging and continuing (the `if let Err` logging
in the pipeline loop is dead code, the local `Error` enum being
uninhabited). -/
theorem c2_program_error_panics_pipeline :
    dispatch_webhook_program
      [.setEnv ["a"] (.item (.value (.intValue 5))),
       .setEnv ["a", "b"] (.item (.value (.intValue 6)))] []
      = .panicked := by
  decide

/-- C3 counterexample.  For the op
`to_payload { format: json, value: set_env { target: "x", value: item 1 } }`
executed on the empty state, the returned state is `{"x": 1}`, which is
NOT equal to the (empty) state the op received: `to_payload` returns the
state produced by evaluating its value expression, not the input state. -/
theorem c3_to_payload_state_changed_counterexample :
    Op.execute (.toPayload .json (.setEnv ["x"] (.item (.value (.intValue 1)))))
        (Payload.new []) State.new
      = .ok (Payload.new (utf8Bytes "1"), [("x", Item.value (.intValue 1))])
    ∧ ([("x", Item.value (.intValue 1))] : State) ≠ State.new := by
  refine ⟨by decide, by decide⟩

/-- C3 as amended.  For every `to_payload { format, value }` op whose
value expression evaluates successfully to item `i` and state `s₂`, the
op succeeds, the returned payload bytes are exactly the serialization of
`i` in the given format, and the returned state is `s₂` — the state
produced by evaluating `value` (equal to the received state exactly when
the evaluation left it unchanged, e.g. for literal values). -/
theorem c3_to_payload_serializes_value (fmt : PayloadFormat) (value : Expression)
    (p : Payload) (s : State) (i : Item) (p₂ : Payload) (s₂ : State)
    (h : value.evaluate p s = .ok (i, p₂, s₂)) :
    Op.execute (.toPayload fmt value) p s = .ok (Payload.new (fmt.to_vec i), s₂) := by
  simp [Op.execute, h]

/-- C3 witness: the amended theorem applied to
`to_payload { format: json, value: item 123 }` on the empty state. -/
theorem c3_to_payload_witness :
    Op.execute (.toPayload .json (.item (.value (.intValue 123))))
        (Payload.new []) State.new
      = .ok (Payload.new (PayloadFormat.json.to_vec (.value (.intValue 123))), State.new) :=
  c3_to_payload_serializes_value .json (.item (.value (.intValue 123)))
    (Payload.new []) State.new (.value (.intValue 123)) (Payload.new []) State.new
    (by decide)

/-- C4.  On the state `{"a": Vec [7]}` (length 1), setting the
out-of-range leaf index `a.1` does NOT fail with `IndexOutOfBound`: it
returns `Ok(None)` and leaves the state unchanged.  Only an INTERMEDIATE
out-of-range segment (`a.1.b`) produces `IndexOutOfBound { index: 1,
len: 1 }`. -/
theorem c4_leaf_vec_out_of_range_is_silent :
    State.set [("a", Item.vec [Item.value (.intValue 7)])] ["a", "1"]
        (.value (.stringValue "v"))
      = (.ok Option.none, [("a", Item.vec [Item.value (.intValue 7)])])
    ∧ (State.set [("a", Item.vec [Item.value (.intValue 7)])] ["a", "1", "b"]
        (.value (.stringValue "v"))).1
      = .error (.indexOutOfBound 1 1) := by
  decide

/-- C5.  Evaluating a `from_json` expression does not return a structured
`Unimplemented` error value: the match arm is `unimplemented!()`, a
panic, for every payload and state. -/
theorem c5_from_json_panics (s : String) (p : Payload) (st : State) :
    Expression.evaluate (.fromJson s) p st = .panicked := by
  simp [Expression.evaluate]

/-- C6 counterexample.  On a pull response holding two messages (both
with the base-64 data `"aGk="`, ack ids `"a1"` and `"a2"`), `get_one`
builds its source message from `messages.pop()` — the LAST entry, ack id
`"a2"` — not the first entry with ack id `"a1"`. -/
theorem c6_get_one_takes_last_counterexample :
    getOneResponse "sub"
        (some [⟨some ⟨some "aGk="⟩, some "a1"⟩, ⟨some ⟨some "aGk="⟩, some "a2"⟩])
      = some (.ok ⟨[104, 105], "a2", "sub"⟩)
    ∧ ("a2" : String) ≠ "a1" := by
  refine ⟨by decide, by decide⟩

/-- C6 as amended.  For every pull response containing one or more
messages, `get_one` takes the LAST message of the response (the only
message, and hence also the first, when the response has exactly one, as
with `max_messages = 1`), decodes its `data` field from base-64 into the
source message bytes, and retains its `ack_id` together with the
subscription identifier for the later ack. -/
theorem c6_get_one_decodes_last_message (sub : String)
    (msgs : List ReceivedMessage) (m : ReceivedMessage) (d : String)
    (bytes : List UInt8) (ack : String)
    (hlast : msgs.getLast? = some m)
    (hmsg : m.message = some ⟨some d⟩)
    (hdec : base64Decode d = some bytes)
    (hack : m.ack_id = some ack) :
    getOneResponse sub (some msgs) = some (.ok ⟨bytes, ack, sub⟩) := by
  simp [getOneResponse, getOneLoopStep, getOneFinish, hlast, hmsg, hdec, hack]

/-- C6 witness: the amended theorem applied to a single-message response
with data `"aGk="` (the bytes `"hi"`) and ack id `"a1"`. -/
theorem c6_get_one_witness :
    getOneResponse "sub" (some [⟨some ⟨some "aGk="⟩, some "a1"⟩])
      = some (.ok ⟨[104, 105], "a1", "sub"⟩) :=
  c6_get_one_decodes_last_message "sub" [⟨some ⟨some "aGk="⟩, some "a1"⟩]
    ⟨some ⟨some "aGk="⟩, some "a1"⟩ "aGk=" [104, 105] "a1"
    (by decide) (by decide) (by decide) (by decide)

/-- C7.  For an HTTP target whose url is `{ from_env: id }`: when the
state binds `id` to a `String` scalar the resolved request URL is that
string; in every other case (absent identifier, or an `Int`, `None`,
`Vec` or `Map` binding) it resolves to the literal `"missing url"`; and
the sender builds one request per configured entry unconditionally, so
the call proceeds either way. -/
theorem c7_from_env_url_resolution (id : Identifier) (st : State)
    (cfg : HttpSenderConfig) :
    (∀ s : String, State.get st id = some (.value (.stringValue s)) →
      HttpSender.requestUrls ⟨[.post ⟨.fromEnv id⟩]⟩ st = [s])
    ∧ ((∀ s : String, State.get st id ≠ some (.value (.stringValue s))) →
      HttpSender.requestUrls ⟨[.post ⟨.fromEnv id⟩]⟩ st = ["missing url"])
    ∧ (HttpSender.requestUrls cfg st).length = cfg.http.length := by
  refine ⟨?_, ?_, ?_⟩
  · intro s h
    simp [HttpSender.requestUrls, EnvString.to_string, h]
  · intro h
    cases hv : State.get st id with
    | none => simp [HttpSender.requestUrls, EnvString.to_string, hv]
    | some it =>
      cases it with
      | value v =>
        cases v with
        | none => simp [HttpSender.requestUrls, EnvString.to_string, hv]
        | intValue i => simp [HttpSender.requestUrls, EnvString.to_string, hv]
        | stringValue s => exact absurd hv (h s)
      | vec l => simp [HttpSender.requestUrls, EnvString.to_string, hv]
      | map mm => simp [HttpSender.requestUrls, EnvString.to_string, hv]
  · simp [HttpSender.requestUrls]

/-- C7 witness: the resolution theorem applied to a state binding `u` to
the string `"http://x"` (first conjunct) and to a state binding `u` to an
`Int` (second conjunct). -/
theorem c7_from_env_url_witness :
    HttpSender.requestUrls ⟨[.post ⟨.fromEnv ["u"]⟩]⟩
        [("u", Item.value (.stringValue "http://x"))] = ["http://x"]
    ∧ HttpSender.requestUrls ⟨[.post ⟨.fromEnv ["u"]⟩]⟩
        [("u", Item.value (.intValue 3))] = ["missing url"] := by
  constructor
  · exact (c7_from_env_url_resolution ["u"] [("u", Item.value (.stringValue "http://x"))]
      ⟨[]⟩).1 "http://x" (by decide)
  · refine (c7_from_env_url_resolution ["u"] [("u", Item.value (.intValue 3))]
      ⟨[]⟩).2.1 ?_
    intro s h
    rw [show State.get [("u", Item.value (.intValue 3))] ["u"]
          = some (Item.value (.intValue 3)) by decide] at h
    simp at h

/-- C8.  `get` is total by type (`Option<&Item>`, no error channel); the
substantive content: a missing head segment yields `None` both at a leaf
and with segments remaining, and addressing a child segment of a scalar
`Value` yields `None` — while `set` on the very same path fails with
`NonMapAccess` (the asymmetry the claim names). -/
theorem c8_get_tolerates_missing_and_scalars (m : State) (k r1 : String)
    (rs : List String) (v : Value) (w : Item) :
    (alFind m k = Option.none → State.get m [k] = Option.none)
    ∧ (alFind m k = Option.none → State.get m (k :: r1 :: rs) = Option.none)
    ∧ (alFind m k = some (.value v) → ¬(r1 = "" ∧ rs = []) →
        State.get m (k :: r1 :: rs) = Option.none)
    ∧ (alFind m k = some (.value v) → ¬(r1 = "" ∧ rs = []) →
        (State.set m (k :: r1 :: rs) w).1 = .error (.nonMapAccess k v.type_name)) := by
  refine ⟨?_, ?_, ?_, ?_⟩
  · intro h
    simp [State.get, State.get_from_map, h]
  · intro h
    by_cases hcol : r1 = "" ∧ rs = []
    · simp [State.get, State.get_from_map, hcol, h]
    · simp [State.get, State.get_from_map, hcol, h]
  · intro h hcol
    simp [State.get, State.get_from_map, hcol, h]
  · intro h hcol
    simp [State.set, State.set_map, hcol, h, Item.type_name]

/-- C8 witness: on the state `{"a": Int 1}`, `get("a.b")` is `None` while
`set("a.b", _)` fails with `NonMapAccess`, and `get("zz")` on an absent
key is `None`. -/
theorem c8_witness :
    State.get [("a", Item.value (.intValue 1))] ["a", "b"] = Option.none
    ∧ (State.set [("a", Item.value (.intValue 1))] ["a", "b"] (.value .none)).1
        = .error (.nonMapAccess "a" "Int")
    ∧ State.get [("a", Item.value (.intValue 1))] ["zz"] = Option.none := by
  refine ⟨?_, ?_, ?_⟩
  · exact (c8_get_tolerates_missing_and_scalars [("a", Item.value (.intValue 1))]
      "a" "b" [] (.intValue 1) (.value .none)).2.2.1 (by decide) (by decide)
  · exact (c8_get_tolerates_missing_and_scalars [("a", Item.value (.intValue 1))]
      "a" "b" [] (.intValue 1) (.value .none)).2.2.2 (by decide) (by decide)
  · exact (c8_get_tolerates_missing_and_scalars [("a", Item.value (.intValue 1))]
      "zz" "b" [] (.intValue 1) (.value .none)).1 (by decide)

/-- Inserting back the value already bound to a key leaves the
association list unchanged. -/
theorem alInsert_find_self (m : List (String × Item)) (k : String) (x : Item) :
    alFind m k = some x → (alInsert m k x).2 = m := by
  induction m with
  | nil => intro h; simp [alFind] at h
  | cons hd tl ih =>
    obtain ⟨k', v'⟩ := hd
    intro h
    by_cases hk : k' = k
    · subst hk
      simp [alFind] at h
      simp [alInsert, h]
    · simp [alFind, hk] at h
      simp [alInsert, hk, ih h]

/-- Setting an index back to the element it already holds leaves the list
unchanged. -/
theorem list_set_self (l : List Item) (i : Nat) (x : Item) :
    l[i]? = some x → l.set i x = l := by
  induction l generalizing i with
  | nil => intro h; simp at h
  | cons hd tl ih =>
    intro h
    cases i with
    | zero =>
      simp at h
      simp [h]
    | succ n =>
      simp at h
      simp [ih n h]

/-- A `set` descending only through freshly auto-created maps never
fails: starting from the empty map, every intermediate segment is
auto-created and the leaf insert succeeds. -/
theorem set_map_nil_ok :
    ∀ (id : Identifier) (v : Item), ∃ r, (State.set_map [] id v).1 = .ok r
  | [], _ => ⟨Option.none, by simp [State.set_map]⟩
  | [k], v => ⟨Option.none, by simp [State.set_map, alInsert]⟩
  | k :: r1 :: rs, v => by
    by_cases hcol : r1 = "" ∧ rs = []
    · exact ⟨Option.none, by simp [State.set_map, hcol, alInsert]⟩
    · obtain ⟨r, hr⟩ := set_map_nil_ok (r1 :: rs) v
      refine ⟨r, ?_⟩
      rcases hsm : State.set_map [] (r1 :: rs) v with ⟨res, child⟩
      rw [hsm] at hr
      simp [State.set_map, hcol, alFind, hsm]
      simpa using hr

mutual
/-- A failing `set_map` leaves the map exactly as it was: every failure
happens before any insertion at the failing level, auto-created chains
never fail, and by induction the recursively-mutated child equals the old
child, so writing it back is the identity. -/
theorem set_map_error_unchanged :
    ∀ (m : List (String × Item)) (id : Identifier) (v : Item) (e : PError),
      (State.set_map m id v).1 = .error e → (State.set_map m id v).2 = m
  | m, [], v, e => by
    intro h
    simp [State.set_map] at h
  | m, [k], v, e => by
    intro h
    rcases hai : alInsert m k v with ⟨old, m'⟩
    simp [State.set_map, hai] at h
  | m, k :: r1 :: rs, v, e => by
    intro h
    by_cases hcol : r1 = "" ∧ rs = []
    · rcases hai : alInsert m k v with ⟨old, m'⟩
      simp [State.set_map, hcol, hai] at h
    · cases hfind : alFind m k with
      | none =>
        obtain ⟨r, hr⟩ := set_map_nil_ok (r1 :: rs) v
        rcases hsm : State.set_map [] (r1 :: rs) v with ⟨res, child⟩
        rw [hsm] at hr
        simp at hr
        simp [State.set_map, hcol, hfind, hsm, hr] at h
      | some it =>
        cases it with
        | value vv =>
          simp [State.set_map, hcol, hfind] at h ⊢
        | vec vv =>
          rcases hsm : State.set_vec vv (r1 :: rs) v with ⟨res, vv'⟩
          simp [State.set_map, hcol, hfind, hsm] at h ⊢
          have hres : (State.set_vec vv (r1 :: rs) v).1 = .error e := by
            rw [hsm]; exact h
          have hvv : (State.set_vec vv (r1 :: rs) v).2 = vv :=
            set_vec_error_unchanged vv (r1 :: rs) v e hres
          rw [hsm] at hvv
          simp at hvv
          rw [hvv]
          exact alInsert_find_self m k (.vec vv) hfind
        | map mm =>
          rcases hsm : State.set_map mm (r1 :: rs) v with ⟨res, mm'⟩
          simp [State.set_map, hcol, hfind, hsm] at h ⊢
          have hres : (State.set_map mm (r1 :: rs) v).1 = .error e := by
            rw [hsm]; exact h
          have hmm : (State.set_map mm (r1 :: rs) v).2 = mm :=
            set_map_error_unchanged mm (r1 :: rs) v e hres
          rw [hsm] at hmm
          simp at hmm
          rw [hmm]
          exact alInsert_find_self m k (.map mm) hfind

/-- A failing `set_vec` leaves the vector exactly as it was. -/
theorem set_vec_error_unchanged :
    ∀ (vec : List Item) (id : Identifier) (v : Item) (e : PError),
      (State.set_vec vec id v).1 = .error e → (State.set_vec vec id v).2 = vec
  | vec, [], v, e => by
    intro h
    simp [State.set_vec] at h
  | vec, [k], v, e => by
    intro h
    cases hp : parseUsize k with
    | error pe => simp [State.set_vec, hp]
    | ok idx =>
      cases hg : vec[idx]? with
      | none => simp [State.set_vec, hp, hg]
      | some old => simp [State.set_vec, hp, hg] at h
  | vec, k :: r1 :: rs, v, e => by
    intro h
    by_cases hcol : r1 = "" ∧ rs = []
    · cases hp : parseUsize k with
      | error pe => simp [State.set_vec, hcol, hp]
      | ok idx =>
        cases hg : vec[idx]? with
        | none => simp [State.set_vec, hcol, hp, hg]
        | some old => simp [State.set_vec, hcol, hp, hg] at h
    · cases hp : parseUsize k with
      | error pe => simp [State.set_vec, hcol, hp]
      | ok idx =>
        cases hg : vec[idx]? with
        | none => simp [State.set_vec, hcol, hp, hg]
        | some it =>
          cases it with
          | value vv =>
            simp [State.set_vec, hcol, hp, hg]
          | vec vv =>
            rcases hsm : State.set_vec vv (r1 :: rs) v with ⟨res, vv'⟩
            simp [State.set_vec, hcol, hp, hg, hsm] at h ⊢
            have hres : (State.set_vec vv (r1 :: rs) v).1 = .error e := by
              rw [hsm]; exact h
            have hvv : (State.set_vec vv (r1 :: rs) v).2 = vv :=
              set_vec_error_unchanged vv (r1 :: rs) v e hres
            rw [hsm] at hvv
            simp at hvv
            rw [hvv]
            exact list_set_self vec idx (.vec vv) hg
          | map mm =>
            rcases hsm : State.set_map mm (r1 :: rs) v with ⟨res, mm'⟩
            simp [State.set_vec, hcol, hp, hg, hsm] at h ⊢
            have hres : (State.set_map mm (r1 :: rs) v).1 = .error e := by
              rw [hsm]; exact h
            have hmm : (State.set_map mm (r1 :: rs) v).2 = mm :=
              set_map_error_unchanged mm (r1 :: rs) v e hres
            rw [hsm] at hmm
            simp at hmm
            rw [hmm]
            exact list_set_self vec idx (.map mm) hg
end

/-- C9.  `State::set` is atomic on failure: whenever it returns one of
the structured errors, the state is left exactly equal to its value
before the call — no auto-created intermediate map survives a failed
set. -/
theorem c9_set_atomic_on_failure (s : State) (id : Identifier) (v : Item)
    (e : PError) (h : (State.set s id v).1 = .error e) :
    (State.set s id v).2 = s :=
  set_map_error_unchanged s id v e h

/-- C9 witness: a `NonMapAccess` failure on `{"a": Int 1}` leaves the
state unchanged. -/
theorem c9_witness :
    (State.set [("a", Item.value (.intValue 1))] ["a", "b"] (.value .none)).2
      = [("a", Item.value (.intValue 1))] :=
  c9_set_atomic_on_failure [("a", Item.value (.intValue 1))] ["a", "b"]
    (.value .none) (.nonMapAccess "a" "Int") (by decide)

mutual
/-- Every successful expression evaluation returns the payload it
received: all variants thread the payload through unchanged. -/
theorem evaluate_preserves_payload :
    ∀ (exp : Expression) (p : Payload) (s : State) (i : Item) (p' : Payload)
      (s' : State), Expression.evaluate exp p s = .ok (i, p', s') → p' = p
  | .setEnv target value, p, s, i, p', s' => by
    intro h
    cases hev : Expression.evaluate value p s with
    | ok t =>
      obtain ⟨v1, p1, s1⟩ := t
      have hp1 : p1 = p := evaluate_preserves_payload value p s v1 p1 s1 hev
      rcases hset : State.set s1 target v1 with ⟨res, s2⟩
      cases res with
      | ok o =>
        simp [Expression.evaluate, hev, hset] at h
        rw [← h.2.1, hp1]
      | error e => simp [Expression.evaluate, hev, hset] at h
    | err e => simp [Expression.evaluate, hev] at h
    | panicked => simp [Expression.evaluate, hev] at h
  | .getEnv key, p, s, i, p', s' => by
    intro h
    simp [Expression.evaluate] at h
    exact h.2.1.symm
  | .fromJson s0, p, s, i, p', s' => by
    intro h
    simp [Expression.evaluate] at h
  | .fromPayload fmt, p, s, i, p', s' => by
    intro h
    cases hp : fmt.parse_payload p with
    | none => simp [Expression.evaluate, hp] at h
    | some it =>
      simp [Expression.evaluate, hp] at h
      exact h.2.1.symm
  | .asMap m, p, s, i, p', s' => by
    intro h
    cases hf : Expression.evalMapFold m [] p s with
    | ok t =>
      obtain ⟨acc, p1, s1⟩ := t
      have hp1 : p1 = p := evalMapFold_preserves_payload m [] p s acc p1 s1 hf
      simp [Expression.evaluate, hf] at h
      rw [← h.2.1, hp1]
    | err e => simp [Expression.evaluate, hf] at h
    | panicked => simp [Expression.evaluate, hf] at h
  | .item i0, p, s, i, p', s' => by
    intro h
    simp [Expression.evaluate] at h
    exact h.2.1.symm

/-- The `as_map` fold also threads the payload through unchanged. -/
theorem evalMapFold_preserves_payload :
    ∀ (l : List (String × Expression)) (acc : List (String × Item)) (p : Payload)
      (s : State) (mr : List (String × Item)) (p' : Payload) (s' : State),
      Expression.evalMapFold l acc p s = .ok (mr, p', s') → p' = p
  | [], acc, p, s, mr, p', s' => by
    intro h
    simp [Expression.evalMapFold] at h
    exact h.2.1.symm
  | (k, e) :: rest, acc, p, s, mr, p', s' => by
    intro h
    cases hev : Expression.evaluate e p s with
    | ok t =>
      obtain ⟨i1, p1, s1⟩ := t
      have hp1 : p1 = p := evaluate_preserves_payload e p s i1 p1 s1 hev
      simp [Expression.evalMapFold, hev] at h
      have hp' : p' = p1 :=
        evalMapFold_preserves_payload rest (alInsert acc k i1).2 p1 s1 mr p' s' h
      rw [hp', hp1]
    | err er => simp [Expression.evalMapFold, hev] at h
    | panicked => simp [Expression.evalMapFold, hev] at h
end

/-- C10.  Expression evaluation never alters the payload: every
successful `Expression::evaluate` (over all variants: `set_env`,
`get_env`, `from_payload`, `as_map`, `item`) returns a payload whose
bytes equal the input payload's bytes; and a `set_env` OP also preserves
the payload, so only the `to_payload` op can change the payload bytes. -/
theorem c10_evaluate_never_alters_payload :
    (∀ (exp : Expression) (p : Payload) (s : State) (i : Item) (p' : Payload)
        (s' : State), Expression.evaluate exp p s = .ok (i, p', s') →
        p'.content = p.content)
    ∧ (∀ (target : Identifier) (value : Expression) (p : Payload) (s : State)
        (p' : Payload) (s' : State),
        Op.execute (.setEnv target value) p s = .ok (p', s') →
        p'.content = p.content) := by
  constructor
  · intro exp p s i p' s' h
    rw [evaluate_preserves_payload exp p s i p' s' h]
  · intro target value p s p' s' h
    cases hev : Expression.evaluate value p s with
    | ok t =>
      obtain ⟨v1, p1, s1⟩ := t
      have hp1 : p1 = p := evaluate_preserves_payload value p s v1 p1 s1 hev
      rcases hset : State.set s1 target v1 with ⟨res, s2⟩
      cases res with
      | ok o =>
        simp [Op.execute, hev, hset] at h
        rw [← h.1, hp1]
      | error e => simp [Op.execute, hev, hset] at h
    | err e => simp [Op.execute, hev] at h
    | panicked => simp [Op.execute, hev] at h

/-- C10 witness: the preservation theorem applied to a `get_env`
expression and to a `set_env` op on the payload `[7]`. -/
theorem c10_witness :
    (Payload.new [7]).content = (Payload.new [7]).content
    ∧ (Payload.new [8]).content = (Payload.new [8]).content := by
  constructor
  · exact c10_evaluate_never_alters_payload.1 (.getEnv ["k"]) (Payload.new [7])
      State.new (.value .none) (Payload.new [7]) State.new (by decide)
  · exact c10_evaluate_never_alters_payload.2 ["k"] (.item (.value .none))
      (Payload.new [8]) State.new (Payload.new [8]) [("k", Item.value .none)]
      (by decide)

end Webhook
